import Mathlib

/-!
Verification development for cpu_watcher (src/src/main.rs).

The program samples per-process CPU usage in a polling loop, alerts via a
Telegram notifier when a process's usage reaches a threshold, applies a
per-process cooldown recorded in a HashMap from Pid to SystemTime, and
garbage-collects stale records on each tick.

Shallow embedding conventions:
- SystemTime instants and Duration values are modelled as Nat milliseconds
  since the UNIX epoch; Duration::as_secs is division by 1000, so the source
  comparison in whole seconds is preserved exactly.
- f32 values (cpu usage, threshold) are modelled as rationals; the claims at
  issue only use order comparisons and decimal literals, which the rational
  model reflects faithfully (NaN and infinities are outside the model).
- The HashMap is modelled as an association list with unique keys; insert
  replaces any existing binding for the key.
- External effects are oracles carried in the input: the bytes returned by
  fs::read of /proc/PID/cmdline, the SystemTime::now() observation for each
  process evaluation, and the outcome of send_telegram (Except Unit Bool:
  error for a transport-level failure, ok b for a delivered Telegram API
  reply with ok = b).
-/

namespace CpuWatcher

/-- Process identifiers (sysinfo::Pid). -/
abbrev Pid := Nat

/-- SystemTime instants, milliseconds since the UNIX epoch. -/
abbrev Time := Nat

/-- SystemTime::duration_since: Ok (self - earlier) when earlier <= self,
Err otherwise (clock moved backwards). The duration is in milliseconds. -/
def durationSince (now earlier : Time) : Option Nat :=
  if earlier ≤ now then some (now - earlier) else none

/-- Duration::as_secs on a millisecond duration (truncating division). -/
def asSecs (d : Nat) : Nat := d / 1000

/-- Whether a byte is a UTF-8 continuation byte (0x80..0xBF). -/
def isCont (b : Nat) : Bool := 0x80 ≤ b && b ≤ 0xBF

/-- Allowed second byte of a three-byte UTF-8 sequence headed by b
(excludes overlong encodings and surrogates, as Rust str::from_utf8 does). -/
def threeByteB1ok (b b1 : Nat) : Bool :=
  if b = 0xE0 then 0xA0 ≤ b1 && b1 ≤ 0xBF
  else if b = 0xED then 0x80 ≤ b1 && b1 ≤ 0x9F
  else isCont b1

/-- Allowed second byte of a four-byte UTF-8 sequence headed by b
(excludes overlong encodings and code points above 0x10FFFF). -/
def fourByteB1ok (b b1 : Nat) : Bool :=
  if b = 0xF0 then 0x90 ≤ b1 && b1 ≤ 0xBF
  else if b = 0xF4 then 0x80 ≤ b1 && b1 ≤ 0x8F
  else isCont b1

/-- UTF-8 decoding of a byte list into code points; none on invalid input.
Models Rust std::str::from_utf8 (RFC 3629 validity). -/
def utf8Dec : List Nat → Option (List Nat)
  | [] => some []
  | b :: bs =>
    if b ≤ 0x7F then (utf8Dec bs).map (fun r => b :: r)
    else if 0xC2 ≤ b && b ≤ 0xDF then
      match bs with
      | b1 :: bs2 =>
        if isCont b1 then
          (utf8Dec bs2).map (fun r => ((b - 0xC0) * 0x40 + (b1 - 0x80)) :: r)
        else none
      | [] => none
    else if 0xE0 ≤ b && b ≤ 0xEF then
      match bs with
      | b1 :: b2 :: bs2 =>
        if threeByteB1ok b b1 && isCont b2 then
          (utf8Dec bs2).map
            (fun r => ((b - 0xE0) * 0x1000 + (b1 - 0x80) * 0x40 + (b2 - 0x80)) :: r)
        else none
      | _ => none
    else if 0xF0 ≤ b && b ≤ 0xF4 then
      match bs with
      | b1 :: b2 :: b3 :: bs2 =>
        if fourByteB1ok b b1 && isCont b2 && isCont b3 then
          (utf8Dec bs2).map
            (fun r => ((b - 0xF0) * 0x40000 + (b1 - 0x80) * 0x1000
              + (b2 - 0x80) * 0x40 + (b3 - 0x80)) :: r)
        else none
      | _ => none
    else none

/-- std::str::from_utf8(s).unwrap_or_default(): decoded code points, or the
empty string on invalid UTF-8. -/
def utf8OrDefault (bs : List Nat) : List Nat := (utf8Dec bs).getD []

/-- read_cmdline_from_proc (main.rs 33-51). The argument is the outcome of
fs::read("/proc/PID/cmdline"): none for Err, some bytes for Ok. Arguments
are the null-separated chunks; empty chunks are dropped, each remaining
chunk is UTF-8 decoded with empty-string fallback, and the results are
joined with spaces; none when no nonempty chunk exists. -/
def read_cmdline_from_proc (raw : Option (List Nat)) : Option (List Nat) :=
  match raw with
  | some content =>
    let args := ((content.splitOn 0).filter (fun s => !s.isEmpty)).map utf8OrDefault
    if args.isEmpty then none else some (List.intercalate [0x20] args)
  | none => none

/-- The caller's command-line resolution (main.rs 160-161):
read_cmdline_from_proc(pid).unwrap_or_else(process.name()). -/
def resolveCmdline (raw : Option (List Nat)) (name : List Nat) : List Nat :=
  (read_cmdline_from_proc raw).getD name

/-- Digit run to its decimal value. -/
def digitsVal (cs : List Char) : Nat := cs.foldl (fun a c => a * 10 + (c.toNat - 48)) 0

/-- All characters are ASCII digits. -/
def allDigits (cs : List Char) : Bool := cs.all (fun c => c.isDigit)

/-- Modelled fragment of Rust str::parse::<f32> over the rational model:
optional sign, then a decimal literal (digits, optional fractional part).
Exponents, inf and NaN are outside the rational model; the program's own
defaults "50.0" and "1.0" are covered exactly. -/
def parseFloat (s : String) : Option ℚ :=
  let (neg, cs) :=
    match s.data with
    | '-' :: rest => (true, rest)
    | '+' :: rest => (false, rest)
    | cs => (false, cs)
  let signed : ℚ → ℚ := fun q => if neg then Rat.neg q else q
  match cs.splitOn '.' with
  | [ip] =>
    if !ip.isEmpty && allDigits ip then some (signed (mkRat (digitsVal ip) 1)) else none
  | [ip, fp] =>
    if (!ip.isEmpty || !fp.isEmpty) && allDigits ip && allDigits fp then
      some (signed (mkRat (digitsVal ip * 10 ^ fp.length + digitsVal fp) (10 ^ fp.length)))
    else none
  | _ => none

/-- Modelled Rust str::parse::<u64>: optional leading +, nonempty digit run,
error on overflow past 2^64 - 1. -/
def parseU64 (s : String) : Option Nat :=
  let cs :=
    match s.data with
    | '+' :: rest => rest
    | cs => cs
  if !cs.isEmpty && allDigits cs && digitsVal cs < 2 ^ 64 then some (digitsVal cs)
  else none

/-- The startup configuration (main.rs 108-126), parsed once before the loop. -/
structure Config where
  threshold : ℚ
  check_interval : ℚ
  cooldown_seconds : Nat
  bot_token : String
  chat_id : String
deriving Repr, DecidableEq

/-- The process environment: env::var as a partial map from names to values. -/
abbrev Env := String → Option String

/-- Startup configuration loading (main.rs 108-126): the three tunables fall
back to their defaults when unset or unparseable; the two Telegram
credentials are required and their absence is fatal (expect panics). -/
def loadConfig (env : Env) : Except String Config :=
  let threshold := (parseFloat ((env "CPU_THRESHOLD").getD "50.0")).getD 50
  let check_interval := (parseFloat ((env "CHECK_INTERVAL").getD "1.0")).getD 1
  let cooldown_seconds := (parseU64 ((env "COOLDOWN_SECONDS").getD "600")).getD 600
  match env "TELEGRAM_BOT_TOKEN" with
  | none => Except.error "TELEGRAM_BOT_TOKEN must be set"
  | some bot_token =>
    match env "TELEGRAM_CHAT_ID" with
    | none => Except.error "TELEGRAM_CHAT_ID must be set"
    | some chat_id =>
      Except.ok ⟨threshold, check_interval, cooldown_seconds, bot_token, chat_id⟩

/-- The alerted table: HashMap<Pid, SystemTime> as an association list whose
keys are unique (the HashMap invariant). -/
abbrev AlertTable := List (Pid × Time)

/-- HashMap::get. -/
def lookupA (tbl : AlertTable) (k : Pid) : Option Time :=
  (tbl.find? (fun kv => kv.1 == k)).map (fun kv => kv.2)

/-- HashMap::insert: bind k to v, replacing any existing binding. -/
def insertA (tbl : AlertTable) (k : Pid) (v : Time) : AlertTable :=
  (k, v) :: tbl.filter (fun kv => kv.1 != k)

/-- Keys are pairwise distinct (what a HashMap guarantees by construction). -/
def NodupKeys (tbl : AlertTable) : Prop := (tbl.map Prod.fst).Nodup

/-- Number of records stored under a key. -/
def keyCount (tbl : AlertTable) (k : Pid) : Nat := tbl.countP (fun kv => kv.1 == k)

/-- ProcessInfo (main.rs 24-30); strings are unicode code point lists,
create_time is the start time in seconds (none when unknown). -/
structure ProcessInfo where
  name : List Nat
  pid : Pid
  cpu_percent : ℚ
  cmdline : List Nat
  create_time : Option Nat
deriving Repr, DecidableEq

/-- An alert message, abstracted to the fields format_message interpolates
(main.rs 87-102): the threshold and the ProcessInfo. -/
structure Msg where
  threshold : ℚ
  info : ProcessInfo
deriving Repr, DecidableEq

/-- format_message (main.rs 87-102), at the level of its fields. -/
def format_message (info : ProcessInfo) (threshold : ℚ) : Msg := ⟨threshold, info⟩

/-- One process of a snapshot together with the oracle values its evaluation
observes: the SystemTime::now() reading, the /proc cmdline read outcome and
the send_telegram outcome (used only if an attempt happens). -/
structure ProcEval where
  pid : Pid
  name : List Nat
  cpu : ℚ
  cmdlineRaw : Option (List Nat)
  start_time : Nat
  now : Time
  sendResult : Except Unit Bool
deriving Repr

/-- The cooldown suppression test (main.rs 151-157): suppressed when a record
exists, duration_since succeeds, and the elapsed whole seconds are strictly
below cooldown_seconds. -/
def isSuppressed (cfg : Config) (tbl : AlertTable) (pid : Pid) (now : Time) : Bool :=
  match lookupA tbl pid with
  | some last_alert_time =>
    match durationSince now last_alert_time with
    | some elapsed => decide (asSecs elapsed < cfg.cooldown_seconds)
    | none => false
  | none => false

/-- The loop body for one process (main.rs 145-192): threshold check,
cooldown suppression, message assembly, send, and insert on success. Returns
the updated table and the list of notification attempts made (empty or one
message). -/
def evalProcess (cfg : Config) (tbl : AlertTable) (p : ProcEval) : AlertTable × List Msg :=
  if cfg.threshold ≤ p.cpu then
    if isSuppressed cfg tbl p.pid p.now then (tbl, [])
    else
      let cmdline := resolveCmdline p.cmdlineRaw p.name
      let create_time := if p.start_time = 0 then none else some p.start_time
      let msg := format_message ⟨p.name, p.pid, p.cpu, cmdline, create_time⟩ cfg.threshold
      match p.sendResult with
      | Except.ok true => (insertA tbl p.pid p.now, [msg])
      | Except.ok false => (tbl, [msg])
      | Except.error _ => (tbl, [msg])
  else (tbl, [])

/-- The per-tick fold over the snapshot (main.rs 145-193), accumulating the
attempts in order. -/
def evalSnapshot (cfg : Config) (acc : AlertTable × List Msg) :
    List ProcEval → AlertTable × List Msg
  | [] => acc
  | p :: rest =>
    let r := evalProcess cfg acc.1 p
    evalSnapshot cfg (r.1, acc.2 ++ r.2) rest

/-- The GC sweep (main.rs 195-197): retain records with time > cutoff where
cutoff = now - Duration::from_secs(cooldown_seconds * 5). The product
cooldown_seconds * 5 is computed in u64, so it is reduced modulo 2^64
(release-build wrapping semantics). In Nat milliseconds the full-precision
SystemTime comparison time > now - duration is written now < time + duration
to avoid truncated subtraction. -/
def gcSweep (cfg : Config) (now : Time) (tbl : AlertTable) : AlertTable :=
  tbl.filter (fun kv => decide (now < kv.2 + 1000 * (cfg.cooldown_seconds * 5 % 2 ^ 64)))

/-- One tick of the loop (main.rs 140-198): the snapshot with its oracles and
the SystemTime::now() reading taken for the GC cutoff. -/
structure TickInput where
  procs : List ProcEval
  gcNow : Time

/-- One full tick: evaluate every process, then sweep. -/
def runTick (cfg : Config) (tbl : AlertTable) (t : TickInput) : AlertTable × List Msg :=
  let r := evalSnapshot cfg (tbl, []) t.procs
  (gcSweep cfg t.gcNow r.1, r.2)

/-- The polling loop over a finite prefix of ticks, threading the table. -/
def runTicks (cfg : Config) (tbl : AlertTable) : List TickInput → AlertTable
  | [] => tbl
  | t :: rest => runTicks cfg (runTick cfg tbl t).1 rest

/-- main: load the configuration; on failure abort (none) before any tick,
otherwise run the loop from the empty table. -/
def runMain (env : Env) (ticks : List TickInput) : Option AlertTable :=
  match loadConfig env with
  | Except.error _ => none
  | Except.ok cfg => some (runTicks cfg [] ticks)

end CpuWatcher


namespace CpuWatcher

theorem find?_filter_ne (t : AlertTable) (k q : Pid) (h : q ≠ k) :
    (t.filter (fun kv => kv.1 != k)).find? (fun kv => kv.1 == q) =
      t.find? (fun kv => kv.1 == q) := by
  induction t with
  | nil => rfl
  | cons a t ih =>
    by_cases hk : a.1 = k
    · rw [List.filter_cons_of_neg (by simp [hk]),
        List.find?_cons_of_neg t (by simp [hk, Ne.symm h]), ih]
    · by_cases hq : a.1 = q
      · rw [List.filter_cons_of_pos (by simp [hk]),
          List.find?_cons_of_pos _ (by simp [hq]), List.find?_cons_of_pos t (by simp [hq])]
      · rw [List.filter_cons_of_pos (by simp [hk]),
          List.find?_cons_of_neg _ (by simp [hq]), List.find?_cons_of_neg t (by simp [hq]), ih]

theorem lookupA_insertA_self (tbl : AlertTable) (k : Pid) (v : Time) :
    lookupA (insertA tbl k v) k = some v := by
  simp [lookupA, insertA, List.find?]

theorem lookupA_insertA_ne (tbl : AlertTable) (k q : Pid) (v : Time) (h : q ≠ k) :
    lookupA (insertA tbl k v) q = lookupA tbl q := by
  have hq : (k == q) = false := by simp [Ne.symm h]
  simp [lookupA, insertA, List.find?, hq, find?_filter_ne tbl k q h]

theorem keyCount_insertA_self (tbl : AlertTable) (k : Pid) (v : Time) :
    keyCount (insertA tbl k v) k = 1 := by
  have hz : (tbl.filter (fun kv => kv.1 != k)).countP (fun kv => kv.1 == k) = 0 := by
    rw [List.countP_eq_zero]
    intro kv hkv
    have := (List.mem_filter.mp hkv).2
    simpa using this
  simp [keyCount, insertA, List.countP_cons, hz]

theorem nodupKeys_insertA (tbl : AlertTable) (k : Pid) (v : Time)
    (h : NodupKeys tbl) : NodupKeys (insertA tbl k v) := by
  unfold NodupKeys insertA
  rw [List.map_cons]
  refine List.Nodup.cons ?_ ?_
  · intro hmem
    rcases List.mem_map.mp hmem with ⟨kv, hkv, hfst⟩
    have := (List.mem_filter.mp hkv).2
    rw [hfst] at this
    simp at this
  · exact List.Nodup.sublist (List.Sublist.map Prod.fst (List.filter_sublist tbl)) h

theorem nodupKeys_filter (tbl : AlertTable) (p : Pid × Time → Bool)
    (h : NodupKeys tbl) : NodupKeys (tbl.filter p) :=
  List.Nodup.sublist (List.Sublist.map Prod.fst (List.filter_sublist tbl)) h

theorem isSuppressed_of_none (cfg : Config) (tbl : AlertTable) (pid : Pid) (now : Time)
    (h : lookupA tbl pid = none) : isSuppressed cfg tbl pid now = false := by
  simp [isSuppressed, h]

theorem isSuppressed_of_recent (cfg : Config) (tbl : AlertTable) (pid : Pid)
    (now last : Time) (hl : lookupA tbl pid = some last) (hle : last ≤ now)
    (hrec : (now - last) / 1000 < cfg.cooldown_seconds) :
    isSuppressed cfg tbl pid now = true := by
  simp [isSuppressed, hl, durationSince, hle, asSecs, hrec]

theorem isSuppressed_of_elapsed (cfg : Config) (tbl : AlertTable) (pid : Pid)
    (now last : Time) (hl : lookupA tbl pid = some last) (hle : last ≤ now)
    (hel : cfg.cooldown_seconds ≤ (now - last) / 1000) :
    isSuppressed cfg tbl pid now = false := by
  simp [isSuppressed, hl, durationSince, hle, asSecs, Nat.not_lt.mpr hel]

theorem isSuppressed_of_future (cfg : Config) (tbl : AlertTable) (pid : Pid)
    (now last : Time) (hl : lookupA tbl pid = some last) (hf : now < last) :
    isSuppressed cfg tbl pid now = false := by
  simp [isSuppressed, hl, durationSince, Nat.not_le.mpr hf]

/-- The message the loop body assembles for a triggering process. -/
def msgOf (cfg : Config) (p : ProcEval) : Msg :=
  format_message
    ⟨p.name, p.pid, p.cpu, resolveCmdline p.cmdlineRaw p.name,
      if p.start_time = 0 then none else some p.start_time⟩ cfg.threshold

theorem evalProcess_below (cfg : Config) (tbl : AlertTable) (p : ProcEval)
    (h : p.cpu < cfg.threshold) : evalProcess cfg tbl p = (tbl, []) := by
  simp [evalProcess, not_le.mpr h]

theorem evalProcess_suppressed (cfg : Config) (tbl : AlertTable) (p : ProcEval)
    (hcpu : cfg.threshold ≤ p.cpu) (hs : isSuppressed cfg tbl p.pid p.now = true) :
    evalProcess cfg tbl p = (tbl, []) := by
  simp [evalProcess, hcpu, hs]

theorem evalProcess_attempt (cfg : Config) (tbl : AlertTable) (p : ProcEval)
    (hcpu : cfg.threshold ≤ p.cpu) (hs : isSuppressed cfg tbl p.pid p.now = false) :
    evalProcess cfg tbl p =
      ((match p.sendResult with
        | Except.ok true => insertA tbl p.pid p.now
        | Except.ok false => tbl
        | Except.error _ => tbl), [msgOf cfg p]) := by
  unfold evalProcess msgOf
  rw [if_pos hcpu, if_neg (by simp [hs])]
  rcases p.sendResult with e | b
  · rfl
  · cases b <;> rfl

end CpuWatcher

namespace CpuWatcher

/-- C1: a threshold-passing process whose AlertRecord is younger than the
cooldown (elapsed whole seconds strictly below cooldown_seconds) is skipped:
no notification attempt is made and the table, hence the stored timestamp,
is unchanged; when the elapsed time equals cooldown_seconds exactly the
process is eligible again and an attempt is made. -/
theorem c1_cooldown_suppression (cfg : Config) (tbl : AlertTable) (p : ProcEval) (last : Time)
    (hcpu : cfg.threshold ≤ p.cpu) (hl : lookupA tbl p.pid = some last) (hle : last ≤ p.now) :
    ((p.now - last) / 1000 < cfg.cooldown_seconds → evalProcess cfg tbl p = (tbl, [])) ∧
    (p.now - last = 1000 * cfg.cooldown_seconds →
      (evalProcess cfg tbl p).2 = [msgOf cfg p]) := by
  constructor
  · intro hrec
    exact evalProcess_suppressed cfg tbl p hcpu
      (isSuppressed_of_recent cfg tbl p.pid p.now last hl hle hrec)
  · intro heq
    have hel : cfg.cooldown_seconds ≤ (p.now - last) / 1000 := by
      rw [heq, Nat.mul_div_cancel_left _ (by norm_num : 0 < 1000)]
    rw [evalProcess_attempt cfg tbl p hcpu
      (isSuppressed_of_elapsed cfg tbl p.pid p.now last hl hle hel)]

/-- C1 witness: pid 1 alerted at 1000 ms, re-evaluated at 6000 ms (5 s
elapsed, cooldown 600 s): skipped with the table unchanged. -/
theorem c1_witness :
    evalProcess ⟨50, 1, 600, "t", "c"⟩ [(1, 1000)] ⟨1, [], 75, none, 0, 6000, Except.ok true⟩ =
      ([(1, 1000)], []) :=
  (c1_cooldown_suppression ⟨50, 1, 600, "t", "c"⟩ [(1, 1000)]
    ⟨1, [], 75, none, 0, 6000, Except.ok true⟩ 1000 (by decide) (by decide) (by decide)).1
    (by decide)

/-- C2: a notification attempt happens only when cpu_usage >= threshold; a
process below the threshold leaves the table unchanged and sends nothing;
a process at exactly the threshold with no record passes and an attempt is
made. -/
theorem c2_threshold_inclusive (cfg : Config) (tbl : AlertTable) (p : ProcEval) :
    (p.cpu < cfg.threshold → evalProcess cfg tbl p = (tbl, [])) ∧
    ((evalProcess cfg tbl p).2 ≠ [] → cfg.threshold ≤ p.cpu) ∧
    (p.cpu = cfg.threshold → lookupA tbl p.pid = none →
      (evalProcess cfg tbl p).2 = [msgOf cfg p]) := by
  refine ⟨fun h => evalProcess_below cfg tbl p h, ?_, ?_⟩
  · intro hne
    by_contra hlt
    rw [evalProcess_below cfg tbl p (not_le.mp hlt)] at hne
    exact hne rfl
  · intro heq hnone
    rw [evalProcess_attempt cfg tbl p (le_of_eq heq.symm)
      (isSuppressed_of_none cfg tbl p.pid p.now hnone)]

/-- C2 witness: a process at 10% with threshold 50 is skipped and the table
is unchanged. -/
theorem c2_witness :
    evalProcess ⟨50, 1, 600, "t", "c"⟩ [(2, 7)] ⟨1, [], 10, none, 0, 1000, Except.ok true⟩ =
      ([(2, 7)], []) :=
  (c2_threshold_inclusive ⟨50, 1, 600, "t", "c"⟩ [(2, 7)]
    ⟨1, [], 10, none, 0, 1000, Except.ok true⟩).1 (by decide)

/-- C3: when the send reports failure (Ok false) or a transport error (Err),
the table is exactly as before the attempt, and the fold continues over the
remaining processes from that unchanged table. -/
theorem c3_failure_leaves_table (cfg : Config) (tbl : AlertTable) (p : ProcEval)
    (rest : List ProcEval) (ms : List Msg)
    (hfail : p.sendResult = Except.ok false ∨ ∃ e, p.sendResult = Except.error e) :
    (evalProcess cfg tbl p).1 = tbl ∧
    evalSnapshot cfg (tbl, ms) (p :: rest) =
      evalSnapshot cfg (tbl, ms ++ (evalProcess cfg tbl p).2) rest := by
  have h1 : (evalProcess cfg tbl p).1 = tbl := by
    by_cases hcpu : cfg.threshold ≤ p.cpu
    · cases hs : isSuppressed cfg tbl p.pid p.now with
      | false =>
        rw [evalProcess_attempt cfg tbl p hcpu hs]
        rcases hfail with hf | ⟨e, hf⟩ <;> rw [hf]
      | true => rw [evalProcess_suppressed cfg tbl p hcpu hs]
    · rw [evalProcess_below cfg tbl p (not_le.mp hcpu)]
  refine ⟨h1, ?_⟩
  show evalSnapshot cfg ((evalProcess cfg tbl p).1, ms ++ (evalProcess cfg tbl p).2) rest = _
  rw [h1]

/-- C3 witness: a failed send (Telegram replies ok = false) for pid 1 leaves
the empty table empty and the fold proceeds to the rest of the snapshot. -/
theorem c3_witness :
    (evalProcess ⟨50, 1, 600, "t", "c"⟩ [] ⟨1, [], 75, none, 0, 1000, Except.ok false⟩).1 = [] ∧
    evalSnapshot ⟨50, 1, 600, "t", "c"⟩ ([], []) [⟨1, [], 75, none, 0, 1000, Except.ok false⟩] =
      evalSnapshot ⟨50, 1, 600, "t", "c"⟩
        ([], [] ++ (evalProcess ⟨50, 1, 600, "t", "c"⟩ []
          ⟨1, [], 75, none, 0, 1000, Except.ok false⟩).2) [] :=
  c3_failure_leaves_table ⟨50, 1, 600, "t", "c"⟩ [] ⟨1, [], 75, none, 0, 1000, Except.ok false⟩
    [] [] (Or.inl rfl)

/-- C4: on a successful send for a triggering, unsuppressed process the table
is upserted with that process's observed current time: the key maps to now,
every other key is untouched, and exactly one record exists for the key. -/
theorem c4_success_upsert (cfg : Config) (tbl : AlertTable) (p : ProcEval)
    (hcpu : cfg.threshold ≤ p.cpu) (hs : isSuppressed cfg tbl p.pid p.now = false)
    (hok : p.sendResult = Except.ok true) :
    (evalProcess cfg tbl p).1 = insertA tbl p.pid p.now ∧
    lookupA (evalProcess cfg tbl p).1 p.pid = some p.now ∧
    (∀ q, q ≠ p.pid → lookupA (evalProcess cfg tbl p).1 q = lookupA tbl q) ∧
    keyCount (evalProcess cfg tbl p).1 p.pid = 1 := by
  have h1 : (evalProcess cfg tbl p).1 = insertA tbl p.pid p.now := by
    rw [evalProcess_attempt cfg tbl p hcpu hs, hok]
  refine ⟨h1, ?_, ?_, ?_⟩
  · rw [h1]; exact lookupA_insertA_self tbl p.pid p.now
  · intro q hq; rw [h1]; exact lookupA_insertA_ne tbl p.pid q p.now hq
  · rw [h1]; exact keyCount_insertA_self tbl p.pid p.now

/-- C4 witness: a successful send for pid 1 (record present but 601 s old,
cooldown 600 s) overwrites the record with the current time and keeps a
single record under the key. -/
theorem c4_witness :
    (evalProcess ⟨50, 1, 600, "t", "c"⟩ [(1, 1000)]
      ⟨1, [], 75, none, 0, 602000, Except.ok true⟩).1 =
      insertA [(1, 1000)] 1 602000 ∧
    lookupA (evalProcess ⟨50, 1, 600, "t", "c"⟩ [(1, 1000)]
      ⟨1, [], 75, none, 0, 602000, Except.ok true⟩).1 1 = some 602000 ∧
    (∀ q, q ≠ 1 → lookupA (evalProcess ⟨50, 1, 600, "t", "c"⟩ [(1, 1000)]
      ⟨1, [], 75, none, 0, 602000, Except.ok true⟩).1 q = lookupA [(1, 1000)] q) ∧
    keyCount (evalProcess ⟨50, 1, 600, "t", "c"⟩ [(1, 1000)]
      ⟨1, [], 75, none, 0, 602000, Except.ok true⟩).1 1 = 1 :=
  c4_success_upsert ⟨50, 1, 600, "t", "c"⟩ [(1, 1000)]
    ⟨1, [], 75, none, 0, 602000, Except.ok true⟩ (by decide) (by decide) rfl

end CpuWatcher

namespace CpuWatcher

/-- C5 counterexample: the sweep does not always cut at 5 * cooldown_seconds.
At cooldown_seconds = 3689348814741910324 the u64 product
cooldown_seconds * 5 = 2^64 + 4 wraps to 4, so the cutoff is now - 4 s: a
record only 10 s old — far younger than 5 * cooldown_seconds — is removed
even though the claim says it is retained. -/
theorem c5_counterexample :
    (1, 0) ∉ gcSweep ⟨50, 1, 3689348814741910324, "t", "c"⟩ 10000 [(1, 0)] ∧
    (10000 : Nat) - 0 < 1000 * (3689348814741910324 * 5) := by
  constructor <;> decide

/-- C5 amended: provided cooldown_seconds * 5 does not overflow u64 (true of
the default 600 and every realistic cooldown), a tick's final table is the
GC sweep (after the whole snapshot is processed), and the sweep keeps
exactly the records satisfying the source comparison time > now - 5 *
cooldown, i.e. those whose age is strictly below 5 * cooldown_seconds (in
milliseconds: now < time + 1000 * (cooldown * 5)); records at least that
old are removed, with no reference to any process's cpu usage. -/
theorem c5_gc_sweep (cfg : Config) (tbl : AlertTable) (t : TickInput) (pid : Pid) (ts : Time)
    (hw : cfg.cooldown_seconds * 5 < 2 ^ 64) :
    (runTick cfg tbl t).1 = gcSweep cfg t.gcNow (evalSnapshot cfg (tbl, []) t.procs).1 ∧
    ((pid, ts) ∈ gcSweep cfg t.gcNow tbl ↔
      (pid, ts) ∈ tbl ∧ t.gcNow < ts + 1000 * (cfg.cooldown_seconds * 5)) := by
  refine ⟨rfl, ?_⟩
  have hm : cfg.cooldown_seconds * 5 % 18446744073709551616 = cfg.cooldown_seconds * 5 :=
    Nat.mod_eq_of_lt (show cfg.cooldown_seconds * 5 < 18446744073709551616 from hw)
  simp [gcSweep, List.mem_filter, hm]

/-- C5 witness: with the default cooldown 600 s, a record from time 0 is
gone at 3000001 ms (age just past 5 * 600 s). -/
theorem c5_witness :
    (runTick ⟨50, 1, 600, "t", "c"⟩ [(1, 0)] ⟨[], 3000001⟩).1 =
      gcSweep ⟨50, 1, 600, "t", "c"⟩ 3000001
        (evalSnapshot ⟨50, 1, 600, "t", "c"⟩ ([(1, 0)], []) []).1 ∧
    ((1, 0) ∈ gcSweep ⟨50, 1, 600, "t", "c"⟩ 3000001 [(1, 0)] ↔
      (1, 0) ∈ [(1, 0)] ∧ 3000001 < 0 + 1000 * (600 * 5)) :=
  c5_gc_sweep ⟨50, 1, 600, "t", "c"⟩ [(1, 0)] ⟨[], 3000001⟩ 1 0 (by decide)

/-- C6 counterexample: the claimed per-key monotonicity fails as stated when
the observed clock moves backwards. With cooldown 600 s, pid 1 is alerted
at time 1000 ms; at a later evaluation the clock reads 400 ms, so
duration_since errs, the suppression check is bypassed, and a successful
send overwrites the record with 400 < 1000. -/
theorem c6_counterexample :
    lookupA (evalProcess ⟨50, 1, 600, "t", "c"⟩ []
      ⟨1, [], 75, none, 0, 1000, Except.ok true⟩).1 1 = some 1000 ∧
    lookupA (evalProcess ⟨50, 1, 600, "t", "c"⟩
      (evalProcess ⟨50, 1, 600, "t", "c"⟩ []
        ⟨1, [], 75, none, 0, 1000, Except.ok true⟩).1
      ⟨1, [], 75, none, 0, 400, Except.ok true⟩).1 1 = some 400 ∧
    (400 : Time) < 1000 := by
  refine ⟨by decide, by decide, by decide⟩

/-- C6 amended: provided the clock observed for an evaluation is not earlier
than the stored timestamp, the timestamp under a live key never decreases
across a process evaluation (skips do not write, upserts write the current
time); uniqueness of keys is preserved by every evaluation and by the GC
sweep, and the sweep never rewrites a surviving record. -/
theorem c6_monotone_nodup (cfg : Config) (tbl : AlertTable) (p : ProcEval) (k : Pid) (t : Time)
    (hk : lookupA tbl k = some t) (hclock : t ≤ p.now) :
    (∃ u, lookupA (evalProcess cfg tbl p).1 k = some u ∧ t ≤ u) ∧
    (NodupKeys tbl → NodupKeys (evalProcess cfg tbl p).1) ∧
    (NodupKeys tbl → ∀ now2, NodupKeys (gcSweep cfg now2 tbl)) ∧
    (∀ now2 u, (k, u) ∈ gcSweep cfg now2 tbl → (k, u) ∈ tbl) := by
  refine ⟨?_, ?_, fun h now2 => nodupKeys_filter tbl _ h,
    fun now2 u hm => (List.mem_filter.mp hm).1⟩
  · by_cases hcpu : cfg.threshold ≤ p.cpu
    · cases hs : isSuppressed cfg tbl p.pid p.now with
      | false =>
        rw [evalProcess_attempt cfg tbl p hcpu hs]
        rcases hsr : p.sendResult with e | b
        · exact ⟨t, hk, le_refl t⟩
        · cases b with
          | false => exact ⟨t, hk, le_refl t⟩
          | true =>
            by_cases hkp : k = p.pid
            · subst hkp
              exact ⟨p.now, lookupA_insertA_self tbl p.pid p.now, hclock⟩
            · exact ⟨t, by rw [lookupA_insertA_ne tbl p.pid k p.now hkp]; exact hk,
                le_refl t⟩
      | true =>
        rw [evalProcess_suppressed cfg tbl p hcpu hs]
        exact ⟨t, hk, le_refl t⟩
    · rw [evalProcess_below cfg tbl p (not_le.mp hcpu)]
      exact ⟨t, hk, le_refl t⟩
  · intro hnd
    by_cases hcpu : cfg.threshold ≤ p.cpu
    · cases hs : isSuppressed cfg tbl p.pid p.now with
      | false =>
        rw [evalProcess_attempt cfg tbl p hcpu hs]
        rcases hsr : p.sendResult with e | b
        · exact hnd
        · cases b with
          | false => exact hnd
          | true => exact nodupKeys_insertA tbl p.pid p.now hnd
      | true => rw [evalProcess_suppressed cfg tbl p hcpu hs]; exact hnd
    · rw [evalProcess_below cfg tbl p (not_le.mp hcpu)]; exact hnd

/-- C6 amended witness: pid 1 alerted at 1000 ms; a successful evaluation at
602000 ms (cooldown elapsed) yields a new stored time 602000 with
1000 <= 602000. -/
theorem c6_witness :
    (∃ u, lookupA (evalProcess ⟨50, 1, 600, "t", "c"⟩ [(1, 1000)]
      ⟨1, [], 75, none, 0, 602000, Except.ok true⟩).1 1 = some u ∧ 1000 ≤ u) ∧
    (NodupKeys [(1, 1000)] → NodupKeys (evalProcess ⟨50, 1, 600, "t", "c"⟩ [(1, 1000)]
      ⟨1, [], 75, none, 0, 602000, Except.ok true⟩).1) ∧
    (NodupKeys [(1, 1000)] → ∀ now2,
      NodupKeys (gcSweep ⟨50, 1, 600, "t", "c"⟩ now2 [(1, 1000)])) ∧
    (∀ now2 u, (1, u) ∈ gcSweep ⟨50, 1, 600, "t", "c"⟩ now2 [(1, 1000)] →
      (1, u) ∈ [(1, 1000)]) :=
  c6_monotone_nodup ⟨50, 1, 600, "t", "c"⟩ [(1, 1000)]
    ⟨1, [], 75, none, 0, 602000, Except.ok true⟩ 1 1000 (by decide) (by decide)

end CpuWatcher

namespace CpuWatcher

/-- C7: the program aborts before any tick exactly when a required credential
is absent: runMain yields none iff TELEGRAM_BOT_TOKEN or TELEGRAM_CHAT_ID is
unset; with both present startup succeeds whatever the other keys hold, so
no other key's absence is fatal. -/
theorem c7_required_credentials (env : Env) (ticks : List TickInput) :
    runMain env ticks = none ↔
      env "TELEGRAM_BOT_TOKEN" = none ∨ env "TELEGRAM_CHAT_ID" = none := by
  unfold runMain loadConfig
  rcases hb : env "TELEGRAM_BOT_TOKEN" with _ | tk <;>
    rcases hc : env "TELEGRAM_CHAT_ID" with _ | ci <;> simp [hb, hc]

/-- C8: with the three tunables unset and the credentials present, the
configuration parses to threshold 50.0, interval 1.0 s, cooldown 600 s; and
the whole run depends on the environment only through the configuration
parsed once at startup. -/
theorem c8_defaults (env : Env) (ticks : List TickInput) (tk ci : String)
    (h1 : env "CPU_THRESHOLD" = none) (h2 : env "CHECK_INTERVAL" = none)
    (h3 : env "COOLDOWN_SECONDS" = none) (hb : env "TELEGRAM_BOT_TOKEN" = some tk)
    (hc : env "TELEGRAM_CHAT_ID" = some ci) :
    loadConfig env = Except.ok ⟨50, 1, 600, tk, ci⟩ ∧
    (∀ env2, loadConfig env2 = loadConfig env → runMain env2 ticks = runMain env ticks) := by
  have e1 : (parseFloat "50.0").getD 50 = (50 : ℚ) := by decide
  have e2 : (parseFloat "1.0").getD 1 = (1 : ℚ) := by decide
  have e3 : (parseU64 "600").getD 600 = 600 := by decide
  constructor
  · unfold loadConfig
    rw [h1, h2, h3, hb, hc]
    simp only [Option.getD_none, e1, e2, e3]
  · intro env2 he
    unfold runMain
    rw [he]

/-- C8 witness: a concrete environment holding only the two credentials
parses to the default configuration. -/
theorem c8_witness :
    loadConfig (fun k => if k = "TELEGRAM_BOT_TOKEN" then some "tok"
      else if k = "TELEGRAM_CHAT_ID" then some "chat" else none) =
      Except.ok ⟨50, 1, 600, "tok", "chat"⟩ :=
  (c8_defaults (fun k => if k = "TELEGRAM_BOT_TOKEN" then some "tok"
      else if k = "TELEGRAM_CHAT_ID" then some "chat" else none) [] "tok" "chat"
    (by decide) (by decide) (by decide) (by decide) (by decide)).1

/-- C9: command-line resolution is best-effort and total: a read error falls
back to the short name, content without a nonempty null-separated chunk
falls back to the short name, and in general the resolution either returns
the name or the successfully read command line. -/
theorem c9_cmdline_fallback (bs name : List Nat) :
    resolveCmdline none name = name ∧
    (((bs.splitOn 0).filter (fun s => !s.isEmpty)).isEmpty = true →
      resolveCmdline (some bs) name = name) ∧
    (∀ raw, resolveCmdline raw name = name ∨
      ∃ s, read_cmdline_from_proc raw = some s ∧ resolveCmdline raw name = s) := by
  refine ⟨rfl, ?_, ?_⟩
  · intro hemp
    unfold resolveCmdline read_cmdline_from_proc
    simp only [List.isEmpty_iff] at hemp
    simp [hemp]
  · intro raw
    cases h : read_cmdline_from_proc raw with
    | none => exact Or.inl (by simp [resolveCmdline, h])
    | some s => exact Or.inr ⟨s, rfl, by simp [resolveCmdline, h]⟩

/-- C9 witness: a cmdline file holding only null bytes degrades to the
process's short name. -/
theorem c9_witness : resolveCmdline (some [0, 0]) [65] = [65] :=
  (c9_cmdline_fallback [0, 0] [65]).2.1 (by decide)

/-- C10: a stored timestamp in the future relative to the observed clock
(duration_since errs) bypasses the suppression check: the process is
eligible, an attempt is made, and a successful send overwrites the record
with the earlier current time. -/
theorem c10_future_timestamp (cfg : Config) (tbl : AlertTable) (p : ProcEval) (last : Time)
    (hcpu : cfg.threshold ≤ p.cpu) (hl : lookupA tbl p.pid = some last)
    (hfut : p.now < last) :
    isSuppressed cfg tbl p.pid p.now = false ∧
    (evalProcess cfg tbl p).2 = [msgOf cfg p] ∧
    (p.sendResult = Except.ok true →
      lookupA (evalProcess cfg tbl p).1 p.pid = some p.now) := by
  have hs := isSuppressed_of_future cfg tbl p.pid p.now last hl hfut
  refine ⟨hs, ?_, ?_⟩
  · rw [evalProcess_attempt cfg tbl p hcpu hs]
  · intro hok
    rw [evalProcess_attempt cfg tbl p hcpu hs, hok]
    exact lookupA_insertA_self tbl p.pid p.now

/-- C10 witness: a record at 1000 ms with the clock reading 400 ms is not
suppressed, and a successful send leaves the (earlier) time 400 stored. -/
theorem c10_witness :
    isSuppressed ⟨50, 1, 600, "t", "c"⟩ [(1, 1000)] 1 400 = false ∧
    (evalProcess ⟨50, 1, 600, "t", "c"⟩ [(1, 1000)]
      ⟨1, [], 75, none, 0, 400, Except.ok true⟩).2 =
      [msgOf ⟨50, 1, 600, "t", "c"⟩ ⟨1, [], 75, none, 0, 400, Except.ok true⟩] ∧
    (Except.ok true = (Except.ok true : Except Unit Bool) →
      lookupA (evalProcess ⟨50, 1, 600, "t", "c"⟩ [(1, 1000)]
        ⟨1, [], 75, none, 0, 400, Except.ok true⟩).1 1 = some 400) :=
  c10_future_timestamp ⟨50, 1, 600, "t", "c"⟩ [(1, 1000)]
    ⟨1, [], 75, none, 0, 400, Except.ok true⟩ 1000 (by decide) (by decide) (by decide)

end CpuWatcher
